import Mathlib

/-!
Verification of the encoding-validation and string-slicing core of the
`basic-string` Rust crate, shallowly embedded over `List Nat` buffers
(each element is one code unit: a byte for UTF-8, a 16-bit unit for
UTF-16, a Unicode scalar for UTF-32).  Unicode scalar values are
represented as `Nat` with the predicate `isUnicodeScalar`.
-/

/-- Embeds `UtfError` from `src/utf.rs` (fields `pos` and `len`). -/
structure UtfError where
  pos : Nat
  len : Option Nat
deriving DecidableEq

/-- `Result::is_ok` for results carrying a `UtfError`. -/
def isOkE (r : Except UtfError Unit) : Bool :=
  match r with
  | .ok _ => true
  | .error _ => false

/-- Whether `n` is a Unicode scalar value (what Rust's `char` can hold):
below `0x110000` and not a surrogate. -/
def isUnicodeScalar (n : Nat) : Bool :=
  n < 0x110000 && !(0xD800 ≤ n && n ≤ 0xDFFF)

/-- Embeds `char::from_u32` (Rust core): `some n` when `n` is a Unicode
scalar value, otherwise `none`. -/
def char_from_u32 (n : Nat) : Option Nat :=
  if isUnicodeScalar n then some n else none

/-- State of the byte-at-a-time UTF-8 validator: either at a scalar
boundary (`ground`), or expecting a byte in `[lo, hi]` followed by
`more` further continuation bytes in `[0x80, 0xBF]`. -/
inductive Utf8State where
  | ground
  | expect (lo hi more : Nat)
deriving DecidableEq

/-- One step of the UTF-8 validator: the ranges are the standard UTF-8
byte-pattern table (RFC 3629) that `core::str::from_utf8` enforces —
lead/continuation agreement, no overlong forms, no surrogates
(`0xED 0xA0..` excluded), nothing above `U+10FFFF` (`0xF4 0x90..`
excluded). -/
def utf8Step (s : Utf8State) (b : Nat) : Option Utf8State :=
  match s with
  | .ground =>
    if b ≤ 0x7F then some .ground
    else if 0xC2 ≤ b && b ≤ 0xDF then some (.expect 0x80 0xBF 0)
    else if b = 0xE0 then some (.expect 0xA0 0xBF 1)
    else if b = 0xED then some (.expect 0x80 0x9F 1)
    else if 0xE1 ≤ b && b ≤ 0xEF then some (.expect 0x80 0xBF 1)
    else if b = 0xF0 then some (.expect 0x90 0xBF 2)
    else if b = 0xF4 then some (.expect 0x80 0x8F 2)
    else if 0xF1 ≤ b && b ≤ 0xF3 then some (.expect 0x80 0xBF 2)
    else none
  | .expect lo hi more =>
    if lo ≤ b && b ≤ hi then
      match more with
      | 0 => some .ground
      | m + 1 => some (.expect 0x80 0xBF m)
    else none

/-- Runs the UTF-8 validator over a buffer, `none` on rejection. -/
def utf8Run (s : Utf8State) : List Nat → Option Utf8State
  | [] => some s
  | b :: rest =>
    match utf8Step s b with
    | some s2 => utf8Run s2 rest
    | none => none

/-- Embeds the UTF-8 well-formedness check performed by
`UtfCharTraits::<u8>::validate_range` in `src/utf_char_traits.rs`, which
delegates to `core::str::from_utf8` (Rust core).  Modelled from the
byte-scanning validator of `from_utf8`: the buffer is accepted exactly
when the scan consumes it completely and ends at a scalar boundary.
Only success/failure is modelled; no claim depends on the error payload
of this function. -/
def utf8ValidateRange (l : List Nat) : Bool :=
  match utf8Run .ground l with
  | some .ground => true
  | _ => false

/-- Embeds the `for (i, &c) in buf.iter().rev().enumerate()` loop of
`UtfCharTraits::<u8>::validate_subrange` (`src/utf_char_traits.rs`,
lines 21-34).  `revBuf` is the not-yet-visited part of the reversed
buffer, `i` the enumeration index, `bufLen` the original `buf.len()`
used for the fall-through error. -/
def utf8SubrangeGo (bufLen : Nat) : List Nat → Nat → Except UtfError Unit
  | [], _ => .error ⟨bufLen, none⟩
  | c :: restRev, i =>
    if c &&& 0xC0 = 0x80 then utf8SubrangeGo bufLen restRev (i + 1)
    else if (c &&& 0x80 = 0x00 ∧ i = 0) ∨ (c &&& 0xE0 = 0xC0 ∧ i = 1) ∨ i = 2 then
      .ok ()
    else utf8SubrangeGo bufLen restRev (i + 1)

/-- Embeds `UtfCharTraits::<u8>::validate_subrange` from
`src/utf_char_traits.rs` (lines 10-36). -/
def utf8ValidateSubrange (buf : List Nat) : Except UtfError Unit :=
  match buf with
  | [] => .ok ()
  | b0 :: _ =>
    if b0 &&& 0xC0 = 0x80 then .error ⟨0, some 1⟩
    else if buf.length = 1 then .ok ()
    else utf8SubrangeGo buf.length buf.reverse 0

/-- Embeds `BasicStr::get` from `src/str.rs` (lines 328-338) for the
UTF-8 instantiation, with an index range `start..stop`: bounds-check the
range (`slice::get`), run `validate_subrange` on it, and return the
sliced buffer only when that check succeeds. -/
def basicStrGet8 (s : List Nat) (start stop : Nat) : Option (List Nat) :=
  if start ≤ stop ∧ stop ≤ s.length then
    let range := (s.drop start).take (stop - start)
    match utf8ValidateSubrange range with
    | .ok _ => some range
    | .error _ => none
  else none

/-- Embeds the scanning loop of `UtfCharTraits::<u16>::validate_range`
(`src/utf_char_traits.rs`, lines 62-83): `i` is the `enumerate` index of
the head of the remaining buffer. -/
def utf16ValidateGo : List Nat → Nat → Except UtfError Unit
  | [], _ => .ok ()
  | c :: rest, i =>
    if 0xD800 ≤ c && c ≤ 0xDBFF then
      match rest with
      | [] => .error ⟨i, none⟩
      | c2 :: rest2 =>
        if !(0xDC00 ≤ c2 && c2 ≤ 0xDFFF) then .error ⟨i, some 2⟩
        else utf16ValidateGo rest2 (i + 2)
    else if 0xDC00 ≤ c && c ≤ 0xDFFF then .error ⟨i, some 1⟩
    else utf16ValidateGo rest (i + 1)

/-- Embeds `UtfCharTraits::<u16>::validate_range` from
`src/utf_char_traits.rs` (lines 62-83). -/
def utf16ValidateRange (buf : List Nat) : Except UtfError Unit :=
  utf16ValidateGo buf 0

/-- Embeds `UtfCharTraits::<char>::validate_range` from
`src/utf_char_traits.rs` (lines 125-127): infallible, always `Ok(())`. -/
def utf32ValidateRange (_ : List Nat) : Bool := true

/-- Embeds `RawCharTraits::validate_range` from
`src/cstr_raw_traits_const.rs`: infallible, always `Ok(())`. -/
def rawValidateRange (_ : List Nat) : Bool := true

/-- Embeds `BasicString::push_str` from `src/string.rs` (lines 112-118):
`self.inner.extend_from_slice(s.as_chars())`, i.e. list append. -/
def push_str (s other : List Nat) : List Nat := s ++ other

/-- Wrapping 16-bit subtraction, the release-mode semantics of the `-`
operator on `u16` used inside `UtfCharTraits::<u16>::decode_buf`
(`src/utf.rs`); when no underflow occurs this is plain subtraction. -/
def wsub16 (a b : Nat) : Nat := (a + 0x10000 - b) % 0x10000

/-- Embeds `UtfCharTraits::<u16>::decode_buf` from `src/utf.rs`
(lines 232-244), exactly as written: the low-surrogate test in the
surrogate branch, the `buf.get(2..)` remainders, and the absence of any
`+ 0x10000` are all taken from the source. -/
def utf16DecodeBuf (buf : List Nat) : Option (Nat × List Nat) :=
  match buf with
  | [] => none
  | v0 :: rest =>
    if 0xD800 ≤ v0 && v0 ≤ 0xDBFF then
      match rest with
      | [] => none
      | v1 :: _ =>
        if 0xDC00 ≤ v1 && v1 ≤ 0xDFFF then none
        else
          (char_from_u32 ((wsub16 v0 0xD800) <<< 10 ||| (wsub16 v1 0xDC00))).map
            (fun c => (c, buf.drop 2))
    else (char_from_u32 v0).map (fun c => (c, buf.drop 2))

/-- Embeds `UtfCharTraits::<u16>::encode` from `src/utf.rs` (lines
250-252), which delegates to `char::encode_utf16` (Rust core): one unit
for BMP scalars, a surrogate pair for supplementary scalars.  Modelled
from the core implementation. -/
def utf16Encode (c : Nat) : List Nat :=
  if c < 0x10000 then [c]
  else [0xD800 + ((c - 0x10000) >>> 10), 0xDC00 + ((c - 0x10000) &&& 0x3FF)]

/-- Embeds `UtfCharTraits::<u16>::encoding_len` from `src/utf.rs`
(lines 254-260), exactly as written (`< 0xFFFF`, not `<= 0xFFFF`). -/
def utf16EncodingLen (c : Nat) : Nat :=
  if c < 0xFFFF then 1 else 2

/-- Embeds `UtfCharTraits::<char>::decode_buf` from `src/utf.rs`
(lines 297-299). -/
def utf32DecodeBuf (buf : List Nat) : Option (Nat × List Nat) :=
  match buf with
  | [] => none
  | c :: rest => some (c, rest)

/-- Embeds `UtfCharTraits::<char>::encode` from `src/utf.rs`
(lines 305-308): writes the single unit `c`. -/
def utf32Encode (c : Nat) : List Nat := [c]

/-- Embeds `char::len_utf8` (Rust core), used by
`UtfCharTraits::<u8>::encoding_len` in `src/utf.rs` (lines 175-177). -/
def utf8EncodingLen (c : Nat) : Nat :=
  if c < 0x80 then 1
  else if c < 0x800 then 2
  else if c < 0x10000 then 3
  else 4

/-- Embeds `char::encode_utf8` (Rust core), used by
`UtfCharTraits::<u8>::encode` in `src/utf.rs` (lines 169-173): standard
UTF-8 bit packing into 1-4 bytes. -/
def utf8Encode (c : Nat) : List Nat :=
  if c < 0x80 then [c]
  else if c < 0x800 then
    [0xC0 ||| (c >>> 6), 0x80 ||| (c &&& 0x3F)]
  else if c < 0x10000 then
    [0xE0 ||| (c >>> 12), 0x80 ||| ((c >>> 6) &&& 0x3F), 0x80 ||| (c &&& 0x3F)]
  else
    [0xF0 ||| (c >>> 18), 0x80 ||| ((c >>> 12) &&& 0x3F),
     0x80 ||| ((c >>> 6) &&& 0x3F), 0x80 ||| (c &&& 0x3F)]

/-- `Traits::encode(c, right)` writes the encoded units over the front
of the reserved tail `right`, leaving the rest of `right` untouched. -/
def encodeInto (enc buf : List Nat) : List Nat := enc ++ buf.drop enc.length

/-- Embeds `BasicString::push` from `src/string.rs` (lines 196-204):
`resize_with(len + encoding_len(c), zero_term)` then `encode(c, right)`
on the reserved tail; the buffer is never shrunk afterwards.
Parameterized by the encoding's `encoding_len`, `encode` and
`zero_term`. -/
def basicStringPush (encLen : Nat → Nat) (enc : Nat → List Nat) (zeroTerm : Nat)
    (s : List Nat) (c : Nat) : List Nat :=
  s ++ encodeInto (enc c) (List.replicate (encLen c) zeroTerm)

/-- `BasicString::push` at the UTF-8 instantiation. -/
def push8 (s : List Nat) (c : Nat) : List Nat :=
  basicStringPush utf8EncodingLen utf8Encode 0 s c

/-- `BasicString::push` at the UTF-16 instantiation. -/
def push16 (s : List Nat) (c : Nat) : List Nat :=
  basicStringPush utf16EncodingLen utf16Encode 0 s c

/-- `BasicString::push` at the UTF-32 instantiation. -/
def push32 (s : List Nat) (c : Nat) : List Nat :=
  basicStringPush (fun _ => 1) utf32Encode 0 s c

/-- Embeds `u8::leading_ones` (Rust core) for a byte value. -/
def u8LeadingOnes (b : Nat) : Nat :=
  if !b.testBit 7 then 0
  else if !b.testBit 6 then 1
  else if !b.testBit 5 then 2
  else if !b.testBit 4 then 3
  else if !b.testBit 3 then 4
  else if !b.testBit 2 then 5
  else if !b.testBit 1 then 6
  else if !b.testBit 0 then 7
  else 8

/-- Embeds the `for i in 0..` loop of `UtfCharTraits::<u8>::decode_back`
from `src/utf.rs` (lines 197-217), running over the reversed buffer so
that `split_last` becomes head destructuring.  All masks and the
`leading_ones` checks are exactly the source's. -/
def decodeBack8Go : List Nat → Nat → Nat → Option (Nat × List Nat)
  | revBuf, i, val =>
    if i = 4 then none
    else
      match revBuf with
      | [] => none
      | b :: restRev =>
        if ¬(b &&& 0xC0 = 0x80) then
          if (i = 0 ∧ u8LeadingOnes b ≠ 1) ∨ u8LeadingOnes b ≠ i + 1 then none
          else
            (char_from_u32 (val ||| ((b &&& ((0x100 >>> i) - 1)) <<< (6 * i)))).map
              (fun c => (c, restRev.reverse))
        else decodeBack8Go restRev (i + 1) (val ||| ((b &&& 0x3F) <<< (6 * i)))

/-- Embeds `UtfCharTraits::<u8>::decode_back` from `src/utf.rs`
(lines 197-217). -/
def decode_back8 (buf : List Nat) : Option (Nat × List Nat) :=
  decodeBack8Go buf.reverse 0 0

/-- Embeds the `for i in 0..(slice.len() - self.len())` loop of
`<BasicStr as Pattern>::first_match` (`src/pattern.rs`, lines 64-76):
`i` is the current offset, the last argument the number of remaining
iterations (`bound - i`). -/
def firstMatchGo (needle hay : List Nat) : Nat → Nat → Option (List Nat)
  | _, 0 => none
  | i, rem + 1 =>
    let sliced := (hay.drop i).take needle.length
    if needle = sliced then some sliced else firstMatchGo needle hay (i + 1) rem

/-- Embeds `<BasicStr as Pattern>::first_match` from `src/pattern.rs`
(lines 63-77), including its exclusive loop bound
`slice.len() - self.len()`. -/
def strFirstMatch (needle hay : List Nat) : Option (List Nat) :=
  if hay.length < needle.length then none
  else firstMatchGo needle hay 0 (hay.length - needle.length)

/-- Embeds the `for i in (0..(slice.len() - self.len())).rev()` loop of
`<BasicStr as RevPattern>::last_match` (`src/pattern.rs`, lines 82-94).
The argument is the number of remaining iterations; the current index is
that number minus one.  `&slice[..i][..self.len()]` is modelled as
`(hay.take i).take needle.length`, and the out-of-bounds panic of the
second slicing (when `i < needle.length`) as `Except.error ()`. -/
def lastMatchGo (needle hay : List Nat) : Nat → Except Unit (Option (List Nat))
  | 0 => .ok none
  | k + 1 =>
    let i := k
    if needle.length ≤ i then
      let sliced := (hay.take i).take needle.length
      if needle = sliced then .ok (some sliced) else lastMatchGo needle hay k
    else .error ()

/-- Embeds `<BasicStr as RevPattern>::last_match` from `src/pattern.rs`
(lines 79-95); `Except.error ()` marks a panic. -/
def strLastMatch (needle hay : List Nat) : Except Unit (Option (List Nat)) :=
  if hay.length < needle.length then .ok none
  else lastMatchGo needle hay (hay.length - needle.length)

/-- Embeds the `while i < (chars.len() - 1)` loop of
`BasicCStr::from_chars_with_null` (`src/cstr_from_chars.rs`, lines
15-21): `i` is the current index, the last argument the number of
remaining iterations (`chars.len() - 1 - i`). -/
def noEarlierZeroGo (isZero : Nat → Bool) (chars : List Nat) : Nat → Nat → Bool
  | _, 0 => true
  | i, rem + 1 =>
    if isZero (chars.getD i 0) then false else noEarlierZeroGo isZero chars (i + 1) rem

/-- Embeds `BasicCStr::from_chars_with_null` from
`src/cstr_from_chars.rs` (lines 8-30), exactly as written: the guard on
the last element, the zero-terminator scan over all indices but the
last, and the final `validate_range`.  Parameterized by the traits'
`is_zero_term` and `validate_range` (success/failure). -/
def from_chars_with_null (isZero : Nat → Bool) (validate : List Nat → Bool)
    (chars : List Nat) : Option (List Nat) :=
  match chars.getLast? with
  | none => none
  | some c =>
    if isZero c then none
    else if noEarlierZeroGo isZero chars 0 (chars.length - 1) then
      if validate chars then some chars else none
    else none

/-- `BasicCStr::from_chars_with_null` at the UTF-8 instantiation
(`UtfCharTraits::<u8>::is_zero_term` is `c == 0`). -/
def cstrFromCharsWithNull8 (chars : List Nat) : Option (List Nat) :=
  from_chars_with_null (· = 0) utf8ValidateRange chars

/-- Embeds `BasicStringView` from `src/view.rs`: the `begin`/`end`
pointer pair, modelled as offsets from the start of the backing
sequence. -/
structure BasicStringView where
  begin : Nat
  endPtr : Nat
deriving DecidableEq

/-- Embeds `BasicStringView::new` from `src/view.rs` (lines 14-32):
`begin` is `slice.as_ptr()` (offset 0); `end` is one past the last
element when the slice is non-empty (the `[.., reff]` pattern takes the
last element, at offset `len - 1`, and `[_, end @ ..]` points one past
it), and `begin` itself when the slice is empty. -/
def BasicStringView.new (s : List Nat) : BasicStringView :=
  match s with
  | [] => ⟨0, 0⟩
  | _ => ⟨0, (s.length - 1) + 1⟩

/-- Embeds `BasicStringView::empty` from `src/view.rs` (lines 34-37):
both pointers are the same dangling address `d`. -/
def BasicStringView.empty (d : Nat) : BasicStringView := ⟨d, d⟩

/-- Embeds `<BasicStringView as Deref>::deref` from `src/view.rs`
(lines 48-57): `slice::from_raw_parts(begin, end.offset_from(begin))`
over the backing sequence `s`. -/
def BasicStringView.deref (v : BasicStringView) (s : List Nat) : List Nat :=
  (s.drop v.begin).take (v.endPtr - v.begin)

/-- Running the UTF-8 validator over `a ++ b` is running it over `a`
and continuing from the reached state over `b`. -/
theorem utf8Run_append (b : List Nat) :
    ∀ (a : List Nat) (s : Utf8State),
      utf8Run s (a ++ b) = (utf8Run s a).bind (fun s2 => utf8Run s2 b) := by
  intro a
  induction a with
  | nil => intro s; rfl
  | cons x xs ih =>
    intro s
    rw [List.cons_append, utf8Run, utf8Run]
    cases utf8Step s x with
    | none => rfl
    | some s2 => exact ih s2

/-- A buffer accepted by `utf8ValidateRange` drives the validator from
the ground state back to the ground state. -/
theorem utf8ValidateRange_ground (l : List Nat) (h : utf8ValidateRange l = true) :
    utf8Run .ground l = some .ground := by
  unfold utf8ValidateRange at h
  cases hr : utf8Run .ground l with
  | none => rw [hr] at h; exact absurd h (by simp)
  | some s =>
    cases s with
    | ground => rfl
    | expect lo hi m => rw [hr] at h; exact absurd h (by simp)

/-- Concatenation closure for UTF-8: appending two independently valid
byte sequences yields a valid byte sequence. -/
theorem utf8ValidateRange_append (a b : List Nat)
    (ha : utf8ValidateRange a = true) (hb : utf8ValidateRange b = true) :
    utf8ValidateRange (a ++ b) = true := by
  unfold utf8ValidateRange
  rw [utf8Run_append b a .ground, utf8ValidateRange_ground a ha,
    Option.some_bind, utf8ValidateRange_ground b hb]

/-- Success of the UTF-16 validator loop does not depend on the running
`enumerate` index (which only feeds error payloads). -/
theorem utf16Go_isOk_shift (a : List Nat) (i : Nat) :
    ∀ j, isOkE (utf16ValidateGo a i) = isOkE (utf16ValidateGo a j) := by
  induction a, i using utf16ValidateGo.induct with
  | case1 i => intro j; rfl
  | case2 c i h =>
    intro j
    simp only [utf16ValidateGo, h, if_true, isOkE]
  | case3 c i h c2 rest2 h2 =>
    intro j
    simp only [utf16ValidateGo, h, h2, if_true, isOkE]
  | case4 c i h c2 rest2 h2 ih =>
    intro j
    simp only [utf16ValidateGo, h, h2, if_true, if_false, Bool.not_eq_true] at *
    exact ih (j + 2)
  | case5 c rest i h h2 =>
    intro j
    conv_lhs => rw [utf16ValidateGo.eq_def]
    conv_rhs => rw [utf16ValidateGo.eq_def]
    simp only [if_neg h, if_pos h2, isOkE]
  | case6 c rest i h h2 ih =>
    intro j
    conv_lhs => rw [utf16ValidateGo.eq_def]
    conv_rhs => rw [utf16ValidateGo.eq_def]
    simp only [if_neg h, if_neg h2]
    exact ih (j + 1)

/-- Concatenation closure for the UTF-16 validator loop: a valid
sequence followed by a valid sequence scans successfully. -/
theorem utf16Go_append (b : List Nat) (hb : isOkE (utf16ValidateGo b 0) = true)
    (a : List Nat) (i : Nat) :
    isOkE (utf16ValidateGo a i) = true → isOkE (utf16ValidateGo (a ++ b) i) = true := by
  induction a, i using utf16ValidateGo.induct with
  | case1 i =>
    intro _
    rw [List.nil_append, utf16Go_isOk_shift b i 0]
    exact hb
  | case2 c i h =>
    intro ha
    simp only [utf16ValidateGo, h, if_true, isOkE] at ha
    exact absurd ha (by simp)
  | case3 c i h c2 rest2 h2 =>
    intro ha
    simp only [utf16ValidateGo, h, h2, if_true, isOkE] at ha
    exact absurd ha (by simp)
  | case4 c i h c2 rest2 h2 ih =>
    intro ha
    simp only [utf16ValidateGo, h, h2, if_true, if_false, Bool.not_eq_true] at ha
    rw [List.cons_append, List.cons_append]
    simp only [utf16ValidateGo, h, h2, if_true, if_false, Bool.not_eq_true]
    exact ih ha
  | case5 c rest i h h2 =>
    intro ha
    conv_lhs at ha => rw [utf16ValidateGo.eq_def]
    simp only [if_neg h, if_pos h2, isOkE] at ha
    exact absurd ha (by simp)
  | case6 c rest i h h2 ih =>
    intro ha
    conv_lhs at ha => rw [utf16ValidateGo.eq_def]
    simp only [if_neg h, if_neg h2] at ha
    rw [List.cons_append]
    conv_lhs => rw [utf16ValidateGo.eq_def]
    simp only [if_neg h, if_neg h2]
    exact ih ha

/-- Claim C1: refuted by evaluation.  The buffer
`[0xF0, 0x90, 0x80, 0x80]` (the single scalar U+10000) passes UTF-8
`validate_range`, and splitting it at the scalar boundary 0 yields the
halves `[]` and the whole buffer; yet `validate_subrange` returns an
error on the second half, because the success conditions of its
backward loop never accept a lead byte followed by three continuation
bytes (there is no `i == 3` arm).  So the fast path does
reject a truly valid subrange whose endpoints lie on scalar
boundaries. -/
theorem utf8_validate_subrange_rejects_valid_four_byte_tail :
    utf8ValidateRange [0xF0, 0x90, 0x80, 0x80] = true ∧
    utf8ValidateSubrange [] = .ok () ∧
    utf8ValidateSubrange [0xF0, 0x90, 0x80, 0x80] = .error ⟨4, none⟩ :=
  ⟨by decide, rfl, rfl⟩

/-- Claim C2: refuted by evaluation.  The buffer
`[0xF0, 0x9D, 0x84, 0x9E]` (U+1D11E) passes UTF-8 `validate_range`, but
`BasicStr::get` on the range `0..3` returns `Some` of the buffer
`[0xF0, 0x9D, 0x84]` — a cut inside the 4-byte sequence — because the
unconditional `i == 2` arm of `validate_subrange` accepts a 4-byte lead
followed by only two continuation bytes.  The resulting live slice
fails whole-buffer validation. -/
theorem basicStr_get_produces_invalid_slice :
    utf8ValidateRange [0xF0, 0x9D, 0x84, 0x9E] = true ∧
    basicStrGet8 [0xF0, 0x9D, 0x84, 0x9E] 0 3 = some [0xF0, 0x9D, 0x84] ∧
    utf8ValidateRange [0xF0, 0x9D, 0x84] = false :=
  ⟨by decide, by decide, by decide⟩

/-- Claim C3: refuted by evaluation for UTF-16.  Decoding
`encode(U+0061) ++ [0x62]` returns the scalar with remainder `[]`
instead of `[0x62]` (the non-surrogate branch drops two units via
`buf.get(2..)`), and decoding `encode(U+10000)` — a valid surrogate
pair — returns `None` because the low-surrogate test in `decode_buf` is
inverted. -/
theorem utf16_decode_buf_breaks_round_trip :
    utf16DecodeBuf (utf16Encode 0x61 ++ [0x62]) = some (0x61, []) ∧
    utf16DecodeBuf (utf16Encode 0x10000 ++ []) = none :=
  ⟨rfl, rfl⟩

/-- Claim C4: refuted by evaluation.  The guard on the last element of
`from_chars_with_null` is inverted: the valid null-terminated buffer
`[0x61, 0x00]` is rejected, while the unterminated buffer `[0x61]` is
accepted. -/
theorem from_chars_with_null_inverted_terminator_check :
    cstrFromCharsWithNull8 [0x61, 0x00] = none ∧
    cstrFromCharsWithNull8 [0x61] = some [0x61] :=
  ⟨rfl, rfl⟩

/-- Claim C5: refuted by evaluation.  With haystack `[0x61, 0x62]` and
needle `[0x62]`, the needle occurs at the last possible offset 1, but
`first_match` scans offsets `0..(2 - 1)` — an exclusive bound — and
returns `None`. -/
theorem str_first_match_misses_last_offset :
    strFirstMatch [0x62] [0x61, 0x62] = none :=
  rfl

/-- Claim C6: refuted by evaluation.  With haystack `[0x61, 0x62]` and
needle `[0x62]`, `last_match` slices `slice[..0][..1]`, an
out-of-bounds index panic (modelled as `Except.error ()`), instead of
returning the match at offset 1 or `None`. -/
theorem str_last_match_panics_on_present_needle :
    strLastMatch [0x62] [0x61, 0x62] = .error () :=
  rfl

/-- Claim C7: refuted by evaluation.  On the valid buffer `[0x61]`
(a single ASCII scalar), `decode_back` returns `None`, because its
`leading_ones` validation rejects any final byte with zero leading
ones; and on the valid buffer `[0xC3, 0xA9]` (U+00E9) it returns the
wrong scalar `0x10E9`, because the mask `(0x100 >> i) - 1` fails to
clear the marker bits of the lead byte. -/
theorem utf8_decode_back_rejects_ascii_tail :
    decode_back8 [0x61] = none ∧
    decode_back8 [0xC3, 0xA9] = some (0x10E9, []) :=
  ⟨rfl, rfl⟩

/-- Claim C8: refuted by evaluation for UTF-16.  `encoding_len` reports
2 units for U+FFFF (its test is `< 0xFFFF` instead of `<= 0xFFFF`),
`push` resizes by that length and never shrinks, and `encode` writes
only one unit, so pushing U+FFFF onto an empty UTF-16 buffer leaves an
extra trailing zero unit.  The UTF-8 case from the specification
(pushing U+20AC yields exactly `0xE2 0x82 0xAC`) does hold. -/
theorem push_utf16_ffff_leaves_trailing_zero :
    push16 [] 0xFFFF = [0xFFFF, 0x0000] ∧
    push8 [] 0x20AC = [0xE2, 0x82, 0xAC] :=
  ⟨rfl, rfl⟩

/-- Claim C9: concatenation closure holds for every encoding, and hence
`push_str` — which appends the other validated buffer without
re-validating — preserves whole-buffer validity: for UTF-8 and UTF-16
by the closure lemmas, for UTF-32 and raw bytes trivially since their
validation is infallible. -/
theorem concat_closure_push_str_preserves_validity
    (a8 b8 a16 b16 a32 b32 ar br : List Nat)
    (h8a : utf8ValidateRange a8 = true) (h8b : utf8ValidateRange b8 = true)
    (h16a : isOkE (utf16ValidateRange a16) = true)
    (h16b : isOkE (utf16ValidateRange b16) = true) :
    utf8ValidateRange (push_str a8 b8) = true ∧
    isOkE (utf16ValidateRange (push_str a16 b16)) = true ∧
    utf32ValidateRange (push_str a32 b32) = true ∧
    rawValidateRange (push_str ar br) = true :=
  ⟨utf8ValidateRange_append a8 b8 h8a h8b,
   utf16Go_append b16 h16b a16 0 h16a,
   rfl, rfl⟩

/-- Witness for C9 at concrete inputs: UTF-8 `"a" ++ "é"`, UTF-16
`[U+10000 as a surrogate pair] ++ [0x62]`, arbitrary UTF-32 and raw
buffers. -/
theorem concat_closure_push_str_preserves_validity_witness :
    utf8ValidateRange (push_str [0x61] [0xC3, 0xA9]) = true ∧
    isOkE (utf16ValidateRange (push_str [0xD800, 0xDC00] [0x62])) = true ∧
    utf32ValidateRange (push_str [0x41] [0x42]) = true ∧
    rawValidateRange (push_str [0x00] [0xFF]) = true :=
  concat_closure_push_str_preserves_validity
    [0x61] [0xC3, 0xA9] [0xD800, 0xDC00] [0x62] [0x41] [0x42] [0x00] [0xFF]
    (by decide) (by decide) (by decide) (by decide)

/-- Claim C10: the view round trip is lossless.  For every backing
sequence `s`, dereferencing `BasicStringView::new(s)` — including the
empty sequence — yields exactly `s`, and `BasicStringView::empty()`
(modelled with an arbitrary dangling offset `d`) dereferences to the
empty sequence. -/
theorem view_new_deref_round_trip (s : List Nat) (d : Nat) :
    (BasicStringView.new s).deref s = s ∧
    (BasicStringView.empty d).deref s = [] := by
  constructor
  · match s with
    | [] => rfl
    | x :: xs =>
      show ((x :: xs).drop 0).take ((xs.length + 1 - 1) + 1 - 0) = x :: xs
      simp
  · show (s.drop d).take (d - d) = []
    simp
